import Mathlib

/-
Verification of the P2-RAA-Main-Optical data-normalization pipeline.

The repository is four near-duplicate Python scripts that ingest factory
optical-test spreadsheets, normalize them into a long tidy table and render
charts.  This file gives a shallow embedding of the decision logic:
Python's substring operator (`'sub' in s`), `str.strip`, `str.startswith`,
the column classifiers (`get_station_name`, the target-column filter),
the header locator (`find_header_row`), the per-file error isolation of
`process_uploaded_files`, the value/station drop policy, the sort key of
the 0210v2 variant (`get_sort_key`), the sheet allow-set, the main UI
branch and the "latest date" box-plot selection.
-/

namespace RAAOptical

/-- Python `needle.startswith`-style check on character lists: `leadsChars n h`
is true when `n` is an initial segment of `h`. -/
def leadsChars : List Char → List Char → Bool
  | [], _ => true
  | _ :: _, [] => false
  | a :: as, b :: bs => a == b && leadsChars as bs

/-- Python substring operator on character lists: `occursIn n h` is true when
`n` occurs contiguously inside `h` (the empty needle always occurs). -/
def occursIn (needle : List Char) : List Char → Bool
  | [] => needle.isEmpty
  | b :: bs => leadsChars needle (b :: bs) || occursIn needle bs

/-- Python `'needle' in hay` on strings. -/
def pyIn (needle hay : String) : Bool :=
  occursIn needle.data hay.data

/-- Python `str.strip()`: drop leading and trailing whitespace characters. -/
def stripChars (l : List Char) : List Char :=
  ((l.dropWhile Char.isWhitespace).reverse.dropWhile Char.isWhitespace).reverse

/-- Python `s.strip().startswith(p)` on strings. -/
def strippedStartsWith (p s : String) : Bool :=
  leadsChars p.data (stripChars s.data)

/-- Target-column test of `P2-RAA-Main-Optical-0211v1.py`
(`process_uploaded_files`, lines 66-75): skip the column unless it contains
`Boresight` or `illu_Boresight`; keep it when it also contains `White` or
`PreAA`. -/
def is_target_col_0211 (c : String) : Bool :=
  if !pyIn "Boresight" c && !pyIn "illu_Boresight" c then false
  else pyIn "White" c || pyIn "PreAA" c

/-- Target-column test of `P2-RAA-Main-Optical-0210v1.py` (line 53):
keep columns containing both `Boresight` and `White`. -/
def is_target_col_0210 (c : String) : Bool :=
  pyIn "Boresight" c && pyIn "White" c

/-- Station classifier `get_station_name` of the later variants
(`0211v1` lines 34-46 and `0210v1.1`): a `PreAA` column is `PreAA_1` when it
carries an `H1`/`V1` marker, `PreAA_2` when it carries `H2`/`V2`, and
defaults to `PreAA_1` otherwise; then the `AfterExposure`, `LooseClaws`,
`AA_M87`, `AfterBaking` cascade; otherwise no station. -/
def get_station_name (col_name : String) : Option String :=
  if pyIn "PreAA" col_name then
    if pyIn "H1" col_name || pyIn "V1" col_name then some "PreAA_1"
    else if pyIn "H2" col_name || pyIn "V2" col_name then some "PreAA_2"
    else some "PreAA_1"
  else if pyIn "AfterExposure" col_name then some "AfterExp"
  else if pyIn "LooseClaws" col_name then some "LooseClaws"
  else if pyIn "AA_M87" col_name then some "AA"
  else if pyIn "AfterBaking" col_name then some "AfterBaking"
  else none

/-- Station classifier `get_station_name` of `P2-RAA-Main-Optical-0210v1.py`
(lines 28-36): the `PreAA` branch has no default, falling through to the
remaining cascade when neither marker pair is present. -/
def get_station_name_0210 (col_name : String) : Option String :=
  if pyIn "PreAA" col_name && (pyIn "H1" col_name || pyIn "V1" col_name) then
    some "PreAA_1"
  else if pyIn "PreAA" col_name && (pyIn "H2" col_name || pyIn "V2" col_name) then
    some "PreAA_2"
  else if pyIn "AfterExposure" col_name then some "AfterExp"
  else if pyIn "LooseClaws" col_name then some "LooseClaws"
  else if pyIn "AA_M87" col_name then some "AA"
  else if pyIn "AfterBaking" col_name then some "AfterBaking"
  else none

/-- C1: the Target-column test of the later revision accepts a raw column
name exactly when it contains an optical-family token (`Boresight` or
`illu_Boresight`) and also contains `White` or (later-revision policy)
`PreAA`; every name containing `Boresight` and `White` is accepted by both
revisions, and every name lacking the Boresight family is rejected by both. -/
theorem target_col_spec (c : String) :
    (is_target_col_0211 c = true ↔
      ((pyIn "Boresight" c = true ∨ pyIn "illu_Boresight" c = true)
        ∧ (pyIn "White" c = true ∨ pyIn "PreAA" c = true)))
    ∧ (pyIn "Boresight" c = true → pyIn "White" c = true →
        is_target_col_0211 c = true ∧ is_target_col_0210 c = true)
    ∧ (pyIn "Boresight" c = false → pyIn "illu_Boresight" c = false →
        is_target_col_0211 c = false ∧ is_target_col_0210 c = false) := by
  unfold is_target_col_0211 is_target_col_0210
  cases h1 : pyIn "Boresight" c <;> cases h2 : pyIn "illu_Boresight" c <;>
    cases h3 : pyIn "White" c <;> cases h4 : pyIn "PreAA" c <;> simp

/-- C1 witness: the theorem applied to a concrete full column name. -/
theorem target_col_spec_witness :
    is_target_col_0211 "AA_M87_Boresight_H_White_1" = true
    ∧ is_target_col_0210 "AA_M87_Boresight_H_White_1" = true :=
  (target_col_spec "AA_M87_Boresight_H_White_1").2.1 (by decide) (by decide)

/-- C2: the Station classifier of the later variants is total with a closed
codomain: every input maps to one of the six canonical stations or to no
station; a name containing `PreAA` but none of the `H1`/`V1`/`H2`/`V2`
markers defaults to `PreAA_1`; and the three reference names classify as the
spec states, in both revisions. -/
theorem station_classifier_spec :
    (∀ c : String,
      get_station_name c ∈ ([some "PreAA_1", some "PreAA_2", some "AA",
        some "AfterExp", some "LooseClaws", some "AfterBaking", none] :
          List (Option String)))
    ∧ (∀ c : String, pyIn "PreAA" c = true →
        pyIn "H1" c = false → pyIn "V1" c = false →
        pyIn "H2" c = false → pyIn "V2" c = false →
        get_station_name c = some "PreAA_1")
    ∧ get_station_name "PreAA_H1_White" = some "PreAA_1"
    ∧ get_station_name "PreAA_H2_White" = some "PreAA_2"
    ∧ get_station_name "AA_M87_White" = some "AA"
    ∧ get_station_name_0210 "PreAA_H1_White" = some "PreAA_1"
    ∧ get_station_name_0210 "PreAA_H2_White" = some "PreAA_2"
    ∧ get_station_name_0210 "AA_M87_White" = some "AA" := by
  refine ⟨?_, ?_, by decide, by decide, by decide, by decide, by decide, by decide⟩
  · intro c
    unfold get_station_name
    cases h1 : pyIn "PreAA" c <;> cases h2 : pyIn "H1" c <;>
      cases h3 : pyIn "V1" c <;> cases h4 : pyIn "H2" c <;>
      cases h5 : pyIn "V2" c <;> cases h6 : pyIn "AfterExposure" c <;>
      cases h7 : pyIn "LooseClaws" c <;> cases h8 : pyIn "AA_M87" c <;>
      cases h9 : pyIn "AfterBaking" c <;> simp
  · intro c h1 h2 h3 h4 h5
    unfold get_station_name
    simp [h1, h2, h3, h4, h5]

/-- C2 witness: a `PreAA` column name with no sub-station marker defaults to
`PreAA_1` by the theorem's second conjunct. -/
theorem station_classifier_spec_witness :
    get_station_name "PreAA_Boresight_White" = some "PreAA_1" :=
  station_classifier_spec.2.1 "PreAA_Boresight_White"
    (by decide) (by decide) (by decide) (by decide) (by decide)

/-- First cell of a spreadsheet row as pandas presents it for the header
scan: a text cell or anything else (numbers, missing, timestamps). -/
inductive Cell where
  | str (s : String)
  | other
  deriving DecidableEq

/-- Condition checked by `find_header_row` on a row's first cell:
`isinstance(row[0], str) and row[0].strip().startswith('Tester')`. -/
def isTesterCell : Cell → Bool
  | .str s => strippedStartsWith "Tester" s
  | .other => false

/-- Row loop of `find_header_row`: return the index of the first matching
row, or 0 when the scanned rows are exhausted. -/
def findHeaderAux : List Cell → Nat → Nat
  | [], _ => 0
  | c :: rest, idx => if isTesterCell c then idx else findHeaderAux rest (idx + 1)

/-- Header locator `find_header_row` (`0211v1` lines 21-32, `0210v1` lines
17-26): the sheet read is modelled as `Except` (an exception while reading
yields `.error`); only the first `depth` rows (`nrows=30` resp. `20`) are
scanned, and any exception returns 0. -/
def find_header_row (input : Except String (List Cell)) (depth : Nat) : Nat :=
  match input with
  | .error _ => 0
  | .ok rows => findHeaderAux (rows.take depth) 0

theorem findHeaderAux_eq_zero :
    ∀ (l : List Cell) (n : Nat),
      (∀ c ∈ l, isTesterCell c = false) → findHeaderAux l n = 0 := by
  intro l
  induction l with
  | nil => intro n _; rfl
  | cons c rest ih =>
    intro n h
    have hc : isTesterCell c = false := h c (by simp)
    simp only [findHeaderAux, hc, Bool.false_eq_true, if_false]
    exact ih (n + 1) fun d hd => h d (by simp [hd])

theorem findHeaderAux_first :
    ∀ (l : List Cell) (n i : Nat) (ci : Cell),
      l.get? i = some ci → isTesterCell ci = true →
      (∀ j, j < i → ∀ cj, l.get? j = some cj → isTesterCell cj = false) →
      findHeaderAux l n = n + i := by
  intro l
  induction l with
  | nil => intro n i ci hget; simp at hget
  | cons c rest ih =>
    intro n i ci hget hm hb
    cases i with
    | zero =>
      simp only [List.get?] at hget
      cases hget
      simp [findHeaderAux, hm]
    | succ k =>
      have hc : isTesterCell c = false := hb 0 (Nat.succ_pos k) c rfl
      simp only [findHeaderAux, hc, Bool.false_eq_true, if_false]
      have hrec := ih (n + 1) k ci hget hm
        (fun j hj cj hcj => hb (j + 1) (Nat.succ_lt_succ hj) cj hcj)
      rw [hrec]
      omega

/-- C3: the Header Locator returns 0 on any read/parse error; returns 0 when
no row within the scan depth has a first cell that is text starting (after
stripping whitespace) with `Tester`; and returns the index of the first such
row otherwise.  Being a total Lean function, it never raises. -/
theorem header_locator_spec (depth : Nat) (e : String) (rows : List Cell) :
    find_header_row (Except.error e) depth = 0
    ∧ ((∀ c ∈ rows.take depth, isTesterCell c = false) →
        find_header_row (Except.ok rows) depth = 0)
    ∧ (∀ i ci, (rows.take depth).get? i = some ci → isTesterCell ci = true →
        (∀ j, j < i → ∀ cj, (rows.take depth).get? j = some cj →
          isTesterCell cj = false) →
        find_header_row (Except.ok rows) depth = i) := by
  refine ⟨rfl, ?_, ?_⟩
  · intro h
    exact findHeaderAux_eq_zero (rows.take depth) 0 h
  · intro i ci hget hm hb
    have := findHeaderAux_first (rows.take depth) 0 i ci hget hm hb
    simpa using this

/-- C3 witness: a sheet whose banner row precedes a `Tester` header row at
index 1 (with surrounding whitespace in the cell), scanned at depth 30. -/
theorem header_locator_spec_witness :
    find_header_row (Except.ok
      [Cell.other, Cell.str "  Tester ID", Cell.str "Tester2"]) 30 = 1 := by
  apply (header_locator_spec 30 "boom"
      [Cell.other, Cell.str "  Tester ID", Cell.str "Tester2"]).2.2
      1 (Cell.str "  Tester ID") (by decide) (by decide)
  intro j hj cj hcj
  have hj0 : j = 0 := by omega
  subst hj0
  simp only [List.take, List.get?] at hcj
  cases hcj
  rfl

/-- Raw cell value before `pd.to_numeric(errors='coerce')`: a number, a text
cell, or a missing value. -/
inductive PyVal where
  | num (v : Int)
  | str (s : String)
  | nan
  deriving DecidableEq

/-- Helper for `to_numeric`: parse a non-empty all-digit character list. -/
def digitsToNat : List Char → Option Nat
  | [] => none
  | l =>
    if l.all Char.isDigit then
      some (l.foldl (fun acc c => acc * 10 + (c.toNat - 48)) 0)
    else none

/-- Value coercion `pd.to_numeric(errors='coerce')`, modelled on integer
literals: numbers pass through, missing stays missing, and a text cell
parses as an optionally signed decimal integer with any other text
coercing to missing. -/
def to_numeric : PyVal → Option Int
  | .num v => some v
  | .nan => none
  | .str s =>
    match s.data with
    | '-' :: rest => (digitsToNat rest).map fun n => -(n : Int)
    | l => (digitsToNat l).map fun n => (n : Int)

/-- One melted row as produced by `df.melt(...)` in
`process_uploaded_files`, before the Value coercion and the drop step. -/
structure RawRecord where
  CreateTime : Option Nat
  Side : String
  Source : String
  Direction : String
  Station_Raw : String
  Value : PyVal
  deriving DecidableEq

/-- One row of the assembled final table. -/
structure Record where
  CreateTime : Option Nat
  Side : String
  Source : String
  Direction : String
  Station_Generic : Option String
  Value : Option Int
  deriving DecidableEq

/-- Per-row effect of `melted['Station_Generic'] = ...apply(get_station_name)`
followed by `final_df['Value'] = pd.to_numeric(final_df['Value'], ...)`. -/
def finalizeRecord (q : RawRecord) : Record :=
  { CreateTime := q.CreateTime
    Side := q.Side
    Source := q.Source
    Direction := q.Direction
    Station_Generic := get_station_name q.Station_Raw
    Value := to_numeric q.Value }

/-- Row filter of `final_df.dropna(subset=['Value', 'Station_Generic'])`. -/
def keepRecord (r : Record) : Bool :=
  r.Value.isSome && r.Station_Generic.isSome

/-- Assembly tail of `process_uploaded_files` (`0211v1` lines 101-107):
classify stations, coerce values, and drop every record missing Value or
Station. -/
def assemble (rows : List RawRecord) : List Record :=
  (rows.map finalizeRecord).filter keepRecord

/-- C4: every record of the assembled final table has a non-missing numeric
Value and a non-missing Station, and a melted row survives assembly exactly
when its coerced Value and its classified Station are both present — the
`CreateTime` field (in particular a missing one) plays no role in the drop
decision. -/
theorem assembled_record_invariant (rows : List RawRecord) :
    (∀ r ∈ assemble rows, r.Value.isSome = true ∧ r.Station_Generic.isSome = true)
    ∧ (∀ r : Record, r ∈ assemble rows ↔
        ∃ q, q ∈ rows ∧ r = finalizeRecord q
          ∧ (to_numeric q.Value).isSome = true
          ∧ (get_station_name q.Station_Raw).isSome = true) := by
  constructor
  · intro r hr
    simp only [assemble, List.mem_filter] at hr
    have hk := hr.2
    simp only [keepRecord, Bool.and_eq_true] at hk
    exact hk
  · intro r
    simp only [assemble, List.mem_filter, List.mem_map]
    constructor
    · rintro ⟨⟨q, hq, hfq⟩, hk⟩
      subst hfq
      simp only [keepRecord, Bool.and_eq_true, finalizeRecord] at hk
      exact ⟨q, hq, rfl, hk.1, hk.2⟩
    · rintro ⟨q, hq, hfq, h1, h2⟩
      subst hfq
      exact ⟨⟨q, hq, rfl⟩, by simp [keepRecord, finalizeRecord, h1, h2]⟩

/-- Concrete melted row used by witnesses: parse failure on CreateTime
(missing timestamp) but valid Value and Station. -/
def wRecGood : RawRecord :=
  { CreateTime := none
    Side := "Left"
    Source := "a.xlsx"
    Direction := "H"
    Station_Raw := "AA_M87_Boresight_H_White_1"
    Value := PyVal.num 3 }

/-- Concrete melted row used by witnesses: textual `N/A` Value, dropped. -/
def wRecBad : RawRecord :=
  { CreateTime := some 86400
    Side := "Left"
    Source := "a.xlsx"
    Direction := "H"
    Station_Raw := "AA_M87_Boresight_H_White_1"
    Value := PyVal.str "N/A" }

/-- C4 witness: a record with a missing timestamp but valid Value and
Station is retained by assembly, via the theorem's characterization. -/
theorem assembled_record_invariant_witness :
    finalizeRecord wRecGood ∈ assemble [wRecBad, wRecGood] :=
  ((assembled_record_invariant [wRecBad, wRecGood]).2
      (finalizeRecord wRecGood)).mpr
    ⟨wRecGood, by decide, rfl, by decide, by decide⟩

/-- Error report emitted by the `except` branch of the per-file loop:
`st.error(f"... {uploaded_file.name} ...: {e}")`, naming the file. -/
structure FileError where
  fileName : String
  message : String
  deriving DecidableEq

/-- One uploaded file as the per-file `try` block sees it: the melted rows
of the sheets processed before any failure, plus the exception (if any)
raised while reading the file or one of its sheets.  A file that reads
cleanly has `err = none` and contributes all its rows. -/
structure UFile where
  name : String
  recs : List RawRecord
  err : Option String
  deriving DecidableEq

/-- Rows accumulated in `all_data` across the file loop. -/
def gatherRecs : List UFile → List RawRecord
  | [] => []
  | f :: rest => f.recs ++ gatherRecs rest

/-- Errors reported by the `except` branches across the file loop. -/
def gatherErrors : List UFile → List FileError
  | [] => []
  | f :: rest =>
    (match f.err with
      | some e => [FileError.mk f.name e]
      | none => []) ++ gatherErrors rest

/-- Batch pipeline `process_uploaded_files` (`0211v1` lines 48-107): loop
over files catching per-file exceptions, concatenate all melted rows, then
assemble (coerce and drop).  Returns the final table and the reported
errors. -/
def process_uploaded_files (files : List UFile) : List Record × List FileError :=
  (assemble (gatherRecs files), gatherErrors files)

theorem gatherRecs_append (xs ys : List UFile) :
    gatherRecs (xs ++ ys) = gatherRecs xs ++ gatherRecs ys := by
  induction xs with
  | nil => rfl
  | cons f rest ih => simp [gatherRecs, ih]

theorem gatherErrors_append (xs ys : List UFile) :
    gatherErrors (xs ++ ys) = gatherErrors xs ++ gatherErrors ys := by
  induction xs with
  | nil => rfl
  | cons f rest ih => simp [gatherErrors, ih]

/-- C5: an exception raised while processing one file of a batch is reported
as a single error naming that file, and the rows of every other file —
including the files after the failing one — still reach the assembled
output; the failing file never aborts the batch. -/
theorem file_failure_isolation (fs1 fs2 : List UFile) (f : UFile) (e : String)
    (h : f.err = some e) :
    gatherErrors (fs1 ++ f :: fs2)
      = gatherErrors fs1 ++ FileError.mk f.name e :: gatherErrors fs2
    ∧ gatherRecs (fs1 ++ f :: fs2)
      = gatherRecs fs1 ++ (f.recs ++ gatherRecs fs2)
    ∧ (process_uploaded_files (fs1 ++ f :: fs2)).1
      = assemble (gatherRecs fs1 ++ (f.recs ++ gatherRecs fs2)) := by
  have herr : gatherErrors (f :: fs2) = FileError.mk f.name e :: gatherErrors fs2 := by
    simp [gatherErrors, h]
  have hrec : gatherRecs (f :: fs2) = f.recs ++ gatherRecs fs2 := rfl
  refine ⟨?_, ?_, ?_⟩
  · rw [gatherErrors_append, herr]
  · rw [gatherRecs_append, hrec]
  · simp only [process_uploaded_files]
    rw [gatherRecs_append, hrec]

/-- Concrete clean file for witnesses. -/
def wFileGood : UFile := { name := "a.xlsx", recs := [wRecGood], err := none }

/-- Concrete failing file for witnesses: one sheet was melted before the
exception. -/
def wFileBad : UFile := { name := "b.xlsx", recs := [], err := some "corrupt sheet" }

/-- C5 witness: with a failing file between two clean files, the error list
names exactly the failing file and both clean files' rows are gathered. -/
theorem file_failure_isolation_witness :
    gatherErrors [wFileGood, wFileBad, wFileGood]
      = [FileError.mk "b.xlsx" "corrupt sheet"]
    ∧ gatherRecs [wFileGood, wFileBad, wFileGood]
      = [wRecGood, wRecGood] := by
  have h := file_failure_isolation [wFileGood] [wFileGood] wFileBad
    "corrupt sheet" rfl
  exact ⟨h.1, h.2.1⟩

/-- Outcome of the main UI branch after `process_uploaded_files` returns. -/
inductive UIOutcome where
  | successWithPre (n : Nat)
  | warnNoPre (n : Nat)
  | cannotParse
  deriving DecidableEq

/-- Membership test `'PreAA_1' in df['Station_Generic'].unique()` (presence
of a station in the assembled table). -/
def hasStation (df : List Record) (st : String) : Bool :=
  df.any fun r => r.Station_Generic == some st

/-- Main UI branch of `0211v1` (lines 238-256): an empty table yields the
explicit "cannot parse" error; otherwise the success message when station
`PreAA_1` occurs in the table and the "PreAA data not found" warning when it
does not, both reporting the row count. -/
def mainOutcome (df : List Record) : UIOutcome :=
  if df.isEmpty then UIOutcome.cannotParse
  else if hasStation df "PreAA_1" then UIOutcome.successWithPre df.length
  else UIOutcome.warnNoPre df.length

/-- C8: when every file of the batch yields no melted rows (zero files, no
allow-set sheets, or no target columns anywhere), the assembler returns the
explicitly empty table without raising, and the user-visible outcome is the
single explicit "cannot parse" failure message. -/
theorem empty_batch_spec (files : List UFile) (h : ∀ f ∈ files, f.recs = []) :
    (process_uploaded_files files).1 = []
    ∧ mainOutcome (process_uploaded_files files).1 = UIOutcome.cannotParse := by
  have hg : gatherRecs files = [] := by
    induction files with
    | nil => rfl
    | cons f rest ih =>
      have hf : f.recs = [] := h f (by simp)
      simp [gatherRecs, hf, ih fun g hg2 => h g (by simp [hg2])]
  have hempty : (process_uploaded_files files).1 = [] := by
    simp [process_uploaded_files, hg, assemble]
  refine ⟨hempty, ?_⟩
  rw [hempty]
  rfl

/-- C8 witness: a batch of one readable file with no qualifying sheets. -/
theorem empty_batch_spec_witness :
    (process_uploaded_files [UFile.mk "empty.xlsx" [] none]).1 = []
    ∧ mainOutcome (process_uploaded_files [UFile.mk "empty.xlsx" [] none]).1
      = UIOutcome.cannotParse :=
  empty_batch_spec [UFile.mk "empty.xlsx" [] none] (by decide)

/-- C10: for a non-empty assembled table the success-versus-warning signal
is decided solely by whether station `PreAA_1` occurs in it; in particular a
table containing `PreAA_2` records but no `PreAA_1` record gets the
"PreAA data not found" warning, not the success message. -/
theorem preaa_signal_spec (df : List Record) (hne : df ≠ []) :
    (mainOutcome df = UIOutcome.successWithPre df.length ↔
      ∃ r ∈ df, r.Station_Generic = some "PreAA_1")
    ∧ ((∃ r ∈ df, r.Station_Generic = some "PreAA_2") →
        (∀ r ∈ df, r.Station_Generic ≠ some "PreAA_1") →
        mainOutcome df = UIOutcome.warnNoPre df.length) := by
  have hemp : df.isEmpty = false := by
    cases df with
    | nil => exact absurd rfl hne
    | cons r rest => rfl
  constructor
  · cases hs : hasStation df "PreAA_1" with
    | true =>
      constructor
      · intro _
        simp only [hasStation, List.any_eq_true] at hs
        obtain ⟨r, hr, hb⟩ := hs
        exact ⟨r, hr, by simpa using hb⟩
      · intro _
        simp [mainOutcome, hemp, hs]
    | false =>
      constructor
      · intro hout
        simp [mainOutcome, hemp, hs] at hout
      · rintro ⟨r, hr, hst⟩
        have : hasStation df "PreAA_1" = true := by
          simp only [hasStation, List.any_eq_true]
          exact ⟨r, hr, by simp [hst]⟩
        rw [hs] at this
        exact absurd this (by simp)
  · intro _ hnone
    have hs : hasStation df "PreAA_1" = false := by
      simp only [hasStation, List.any_eq_false]
      intro r hr
      have := hnone r hr
      simpa using this
    simp [mainOutcome, hemp, hs]

/-- Concrete assembled record at station `PreAA_2` for witnesses. -/
def wRecPre2 : Record :=
  { CreateTime := some 86400
    Side := "Left"
    Source := "a.xlsx"
    Direction := "H"
    Station_Generic := some "PreAA_2"
    Value := some 1 }

/-- C10 witness: a one-record table at station `PreAA_2` produces the
warning outcome. -/
theorem preaa_signal_spec_witness :
    mainOutcome [wRecPre2] = UIOutcome.warnNoPre 1 :=
  (preaa_signal_spec [wRecPre2] (by decide)).2
    ⟨wRecPre2, by decide, by decide⟩ (by decide)

/-- Canonical station order shared by all variants. -/
def station_order : List String :=
  ["PreAA_1", "PreAA_2", "AA", "AfterExp", "LooseClaws", "AfterBaking"]

/-- Dictionary lookup `order_map.get(station, 99)` of `0210v2`
(lines 119-123), with `order_map` built by enumerating `station_order`. -/
def lookupIdx (s : String) : List String → Nat → Nat
  | [], _ => 99
  | n :: rest, i => if n == s then i else lookupIdx s rest (i + 1)

/-- Canonical-order index with the 99 sentinel for unknown stations. -/
def order_map (s : String) : Nat :=
  lookupIdx s station_order 0

/-- Sort key `get_sort_key` of `P2-RAA-Main-Optical-0210v2.py`
(lines 122-125): the canonical-order index, plus 100 unless the side is
`Left`. -/
def get_sort_key (station side : String) : Nat :=
  if side == "Left" then order_map station else order_map station + 100

theorem lookupIdx_bound (s : String) :
    ∀ (l : List String) (i : Nat),
      lookupIdx s l i = 99 ∨
        (i ≤ lookupIdx s l i ∧ lookupIdx s l i < i + l.length) := by
  intro l
  induction l with
  | nil => intro i; left; rfl
  | cons n rest ih =>
    intro i
    simp only [lookupIdx]
    by_cases h : (n == s) = true
    · rw [if_pos h]
      right
      constructor
      · exact Nat.le_refl i
      · simp only [List.length_cons]
        omega
    · rw [if_neg h]
      rcases ih (i + 1) with h99 | ⟨hlo, hhi⟩
      · left; exact h99
      · right
        constructor
        · omega
        · simp only [List.length_cons]
          omega

theorem lookupIdx_notMem (s : String) :
    ∀ (l : List String) (i : Nat),
      (∀ n ∈ l, n ≠ s) → lookupIdx s l i = 99 := by
  intro l
  induction l with
  | nil => intro i _; rfl
  | cons n rest ih =>
    intro i h
    have hn : (n == s) = false := by
      have := h n (by simp)
      simpa using this
    simp only [lookupIdx, hn, Bool.false_eq_true, if_false]
    exact ih (i + 1) fun m hm => h m (by simp [hm])

theorem order_map_le (s : String) : order_map s ≤ 99 := by
  have hlen : station_order.length = 6 := rfl
  rcases lookupIdx_bound s station_order 0 with h | ⟨_, hhi⟩
  · rw [order_map, h]
  · rw [order_map]
    omega

/-- C6: the Sort Key of a record equals the station's index in the canonical
order plus 0 on the Left side and plus 100 on the Right side; every
Left-side key is strictly below every Right-side key; within either side the
canonical station sequence is preserved; an unknown station gets the
sentinel index 99 exceeding every named station's index; and the key is a
total function, so the computation never throws. -/
theorem sort_key_spec :
    (∀ i : Fin station_order.length,
      get_sort_key (station_order.get i) "Left" = i.val
      ∧ get_sort_key (station_order.get i) "Right" = i.val + 100)
    ∧ (∀ s1 s2 : String, get_sort_key s1 "Left" < get_sort_key s2 "Right")
    ∧ (∀ side : String, ∀ i j : Fin station_order.length, i < j →
        get_sort_key (station_order.get i) side
          < get_sort_key (station_order.get j) side)
    ∧ (∀ s : String, (∀ n ∈ station_order, n ≠ s) →
        order_map s = 99
        ∧ ∀ i : Fin station_order.length, order_map (station_order.get i) < 99) := by
  have hidx : ∀ i : Fin station_order.length,
      order_map (station_order.get i) = i.val := by decide
  refine ⟨?_, ?_, ?_, ?_⟩
  · decide
  · intro s1 s2
    have h1 : order_map s1 ≤ 99 := order_map_le s1
    simp only [get_sort_key]
    rw [if_pos (by rfl), if_neg (by decide)]
    omega
  · intro side i j hij
    have hi := hidx i
    have hj := hidx j
    simp only [get_sort_key]
    by_cases h : (side == "Left") = true
    · rw [if_pos h, if_pos h, hi, hj]
      exact hij
    · rw [if_neg h, if_neg h, hi, hj]
      omega
  · intro s hs
    refine ⟨lookupIdx_notMem s station_order 0 hs, ?_⟩
    intro i
    rw [hidx i]
    have := i.isLt
    simp only [station_order, List.length_cons, List.length_nil] at this
    omega

/-- C6 witness: concrete keys — Left `PreAA_1` sorts before Left `PreAA_2`,
every Left key sorts before a Right key even for the sentinel, and an
unknown station maps to the sentinel 99. -/
theorem sort_key_spec_witness :
    get_sort_key "PreAA_1" "Left" < get_sort_key "PreAA_2" "Left"
    ∧ get_sort_key "Unknown_Station" "Left" < get_sort_key "PreAA_1" "Right"
    ∧ order_map "Unknown_Station" = 99 := by
  refine ⟨?_, ?_, ?_⟩
  · exact sort_key_spec.2.2.1 "Left" ⟨0, by decide⟩ ⟨1, by decide⟩ (by decide)
  · exact sort_key_spec.2.1 "Unknown_Station" "PreAA_1"
  · exact (sort_key_spec.2.2.2 "Unknown_Station" (by decide)).1

/-- Fixed sheet allow-set of `process_uploaded_files`. -/
def sheet_allow_set : List String :=
  ["RAA-R", "RAA-L", "IPQC-R", "IPQC-L"]

/-- Membership test `sheet.strip() in ['RAA-R', 'RAA-L', 'IPQC-R', 'IPQC-L']`
of `0211v1` (lines 55-57). -/
def sheetAllowed (sheet : String) : Bool :=
  sheet_allow_set.any fun a => stripChars sheet.data == a.data

/-- What the sheet loop does with one sheet name: skip it, or process it
with a derived side. -/
inductive SheetAction where
  | skip
  | processWithSide (side : String)
  deriving DecidableEq

/-- Sheet dispatch of `process_uploaded_files` (`0211v1` lines 54-63):
sheets outside the (whitespace-stripped) allow-set are skipped with no
error; processed sheets get `side = 'Right' if '-R' in sheet else 'Left'`. -/
def classify_sheet (sheet : String) : SheetAction :=
  if sheetAllowed sheet then
    SheetAction.processWithSide (if pyIn "-R" sheet then "Right" else "Left")
  else SheetAction.skip

/-- C7: a sheet whose stripped name is outside the allow-set is skipped
without error; a sheet whose stripped name is in the allow-set is processed,
with Side equal to Right exactly when the name contains `-R` and Left
otherwise; and the four allowed names (also with surrounding whitespace)
dispatch to their correct sides. -/
theorem sheet_extractor_spec (sheet : String) :
    (sheetAllowed sheet = false → classify_sheet sheet = SheetAction.skip)
    ∧ (sheetAllowed sheet = true →
        (classify_sheet sheet = SheetAction.processWithSide "Right" ↔
          pyIn "-R" sheet = true)
        ∧ (classify_sheet sheet = SheetAction.processWithSide "Left" ↔
          pyIn "-R" sheet = false))
    ∧ classify_sheet "RAA-R" = SheetAction.processWithSide "Right"
    ∧ classify_sheet "RAA-L" = SheetAction.processWithSide "Left"
    ∧ classify_sheet "IPQC-R" = SheetAction.processWithSide "Right"
    ∧ classify_sheet "IPQC-L" = SheetAction.processWithSide "Left"
    ∧ classify_sheet " RAA-R " = SheetAction.processWithSide "Right"
    ∧ classify_sheet "Summary" = SheetAction.skip := by
  refine ⟨?_, ?_, by decide, by decide, by decide, by decide, by decide, by decide⟩
  · intro h
    simp [classify_sheet, h]
  · intro h
    cases hr : pyIn "-R" sheet with
    | true => simp [classify_sheet, h, hr]
    | false => simp [classify_sheet, h, hr]

/-- C7 witness: the theorem applied at a padded allowed sheet name. -/
theorem sheet_extractor_spec_witness :
    classify_sheet " IPQC-R" = SheetAction.processWithSide "Right" :=
  ((sheet_extractor_spec " IPQC-R").2.1 (by decide)).1.mpr (by decide)

/-- Calendar date of a timestamp (`.date()` on a parsed `CreateTime`),
timestamps being seconds and a date one whole day. -/
def dateOf (t : Nat) : Nat :=
  t / 86400

/-- Maximum of a timestamp list, `df['CreateTime'].max()` (missing entries
already filtered out; empty input has no maximum, as an all-missing column
yields `NaT`). -/
def listMaxNat : List Nat → Option Nat
  | [] => none
  | t :: rest =>
    match listMaxNat rest with
    | none => some t
    | some m => some (if t ≤ m then m else t)

/-- Non-missing timestamps of the assembled table (pandas `max` skips
`NaT`). -/
def timesOf (df : List Record) : List Nat :=
  df.filterMap fun r => r.CreateTime

/-- Row selection `df[df['CreateTime'].dt.date == latest_date]` of
`generate_ppt` (`0211v1` lines 196-198): records whose parsed date equals
the date of the maximal timestamp; a record with a missing `CreateTime`
never compares equal, and with no maximum at all nothing compares equal. -/
def latest_df (df : List Record) : List Record :=
  match listMaxNat (timesOf df) with
  | some m =>
    df.filter fun r =>
      match r.CreateTime with
      | some t => dateOf t == dateOf m
      | none => false
  | none => df.filter fun _ => false

/-- Data source used for the two latest-data chart images. -/
inductive LatestChartSource where
  | filtered (latest : List Record)
  | overallFallback
  deriving DecidableEq

/-- Latest-chart branch of `generate_ppt` (`0211v1` lines 195-204): a
non-empty table gets box plots of the latest-date restriction, an empty one
falls back to reusing the overall chart buffers. -/
def latest_chart_source (df : List Record) : LatestChartSource :=
  if df.isEmpty then LatestChartSource.overallFallback
  else LatestChartSource.filtered (latest_df df)

theorem listMaxNat_mem :
    ∀ (l : List Nat) (m : Nat), listMaxNat l = some m → m ∈ l := by
  intro l
  induction l with
  | nil => intro m h; simp [listMaxNat] at h
  | cons t rest ih =>
    intro m h
    simp only [listMaxNat] at h
    cases hr : listMaxNat rest with
    | none =>
      rw [hr] at h
      cases h
      simp
    | some m2 =>
      rw [hr] at h
      cases h
      by_cases hle : t ≤ m2
      · rw [if_pos hle]
        simp [ih m2 hr]
      · rw [if_neg hle]
        simp

theorem listMaxNat_le :
    ∀ (l : List Nat) (m : Nat), listMaxNat l = some m → ∀ x ∈ l, x ≤ m := by
  intro l
  induction l with
  | nil => intro m _ x hx; simp at hx
  | cons t rest ih =>
    intro m h x hx
    simp only [listMaxNat] at h
    cases hr : listMaxNat rest with
    | none =>
      rw [hr] at h
      cases h
      rcases List.mem_cons.mp hx with hx0 | hx1
      · exact Nat.le_of_eq hx0
      · exfalso
        cases rest with
        | nil => simp at hx1
        | cons u us =>
          simp only [listMaxNat] at hr
          cases h2 : listMaxNat us with
          | none => rw [h2] at hr; simp at hr
          | some mm => rw [h2] at hr; simp at hr
    | some m2 =>
      rw [hr] at h
      cases h
      by_cases hle : t ≤ m2
      · rw [if_pos hle]
        rcases List.mem_cons.mp hx with hx0 | hx1
        · omega
        · exact ih m2 hr x hx1
      · rw [if_neg hle]
        rcases List.mem_cons.mp hx with hx0 | hx1
        · exact Nat.le_of_eq hx0
        · have := ih m2 hr x hx1
          omega

/-- C9: for an empty table the latest-chart branch reuses the overall chart
rather than failing; for a non-empty table it charts exactly the rows whose
`CreateTime` date equals the date of the maximal timestamp — which is the
maximum date present in the table and is attained by some record. -/
theorem latest_boxplot_spec (df : List Record) :
    (df = [] → latest_chart_source df = LatestChartSource.overallFallback)
    ∧ (df ≠ [] → latest_chart_source df = LatestChartSource.filtered (latest_df df))
    ∧ (∀ m, listMaxNat (timesOf df) = some m →
        (∀ r : Record, r ∈ latest_df df ↔
          r ∈ df ∧ ∃ t, r.CreateTime = some t ∧ dateOf t = dateOf m)
        ∧ (∀ r ∈ df, ∀ t, r.CreateTime = some t → dateOf t ≤ dateOf m)
        ∧ (∃ r ∈ df, r.CreateTime = some m)) := by
  refine ⟨?_, ?_, ?_⟩
  · intro h
    subst h
    rfl
  · intro h
    cases df with
    | nil => exact absurd rfl h
    | cons r rest => rfl
  · intro m hm
    refine ⟨?_, ?_, ?_⟩
    · intro r
      simp only [latest_df, hm, List.mem_filter]
      constructor
      · rintro ⟨hr, hp⟩
        refine ⟨hr, ?_⟩
        cases hct : r.CreateTime with
        | none => rw [hct] at hp; simp at hp
        | some t =>
          rw [hct] at hp
          exact ⟨t, rfl, by simpa using hp⟩
      · rintro ⟨hr, t, hct, hdate⟩
        refine ⟨hr, ?_⟩
        rw [hct]
        simpa using hdate
    · intro r hr t hct
      have ht : t ∈ timesOf df := by
        simp only [timesOf, List.mem_filterMap]
        exact ⟨r, hr, hct⟩
      exact Nat.div_le_div_right (listMaxNat_le (timesOf df) m hm t ht)
    · have hmem : m ∈ timesOf df := listMaxNat_mem (timesOf df) m hm
      simp only [timesOf, List.mem_filterMap] at hmem
      obtain ⟨r, hr, hct⟩ := hmem
      exact ⟨r, hr, hct⟩

/-- Concrete assembled records on two different dates for the C9 witness. -/
def wRecDay0 : Record :=
  { CreateTime := some 10
    Side := "Left"
    Source := "a.xlsx"
    Direction := "H"
    Station_Generic := some "AA"
    Value := some 1 }

/-- Second witness record, on the later date. -/
def wRecDay2 : Record :=
  { CreateTime := some 180000
    Side := "Left"
    Source := "a.xlsx"
    Direction := "V"
    Station_Generic := some "AA"
    Value := some 2 }

/-- C9 witness: on a two-record table spanning two dates, the latest chart
uses the filtered selection, and that selection contains the record on the
maximal date but not the earlier one. -/
theorem latest_boxplot_spec_witness :
    latest_chart_source [wRecDay0, wRecDay2]
      = LatestChartSource.filtered (latest_df [wRecDay0, wRecDay2])
    ∧ wRecDay2 ∈ latest_df [wRecDay0, wRecDay2]
    ∧ wRecDay0 ∉ latest_df [wRecDay0, wRecDay2] := by
  refine ⟨(latest_boxplot_spec [wRecDay0, wRecDay2]).2.1 (by decide), ?_, ?_⟩
  · exact (((latest_boxplot_spec [wRecDay0, wRecDay2]).2.2 180000 (by decide)).1
      wRecDay2).mpr ⟨by decide, 180000, rfl, by decide⟩
  · intro hmem
    have h := (((latest_boxplot_spec [wRecDay0, wRecDay2]).2.2 180000 (by decide)).1
      wRecDay0).mp hmem
    obtain ⟨-, t, hct, hdate⟩ := h
    have h10 : (10 : Nat) = t := by simpa [wRecDay0] using hct
    subst h10
    simp [dateOf] at hdate

end RAAOptical
